import Mathlib

/-!
# Honeypot dashboard backend (`backend/main.go`)

A shallow embedding of the four HTTP handlers of `backend/main.go`
(`getStats`, `getRecentAttacks`, `handleTopologyWS`, `handleFalcoWebhook`)
and the properties of them that the specification states.

Modelling conventions.

* The `logs` table is a list of rows.  `id` is the key of the table; every other
  column may hold SQL `NULL`, which is `none`.
* The four SQL statements issued by the handlers are given their relational
  meaning over that list (`COUNT(*)`, `GROUP BY`, `WHERE`, `ORDER BY`, `LIMIT`).
  Strings are compared exactly.  Where SQL leaves the order of rows open
  (groups, ties) the model fixes one order; no theorem depends on which.
* A statement may fail as a whole, which is the `err` returned by `db.Query` /
  `QueryRow(..).Scan`, or break off while its rows are read (`Fault`).
* `rows.Scan` assigns the columns from left to right and stops at the first
  column that cannot be stored: `NULL` into a Go `int`, `string` or `time.Time`
  is an error, `NULL` into a `sql.NullString` is `Valid = false`.
* A Go slice is `Option (List α)`: `none` is the `nil` slice, which
  `encoding/json` renders as `null`, not as `[]`.
* Go `int` is `Int`; the counts handled here are table sizes and cannot overflow.
-/

namespace Honeypot

/-! ## Data model -/

/-- Point in time, as read from a `DATETIME` column (`parseTime=true`). -/
abbrev Time := Nat

/-- One row of the `logs` table. -/
structure Row where
  id : Int
  timestamp : Option Time
  service : Option String
  level : Option String
  message : Option String
  source_ip : Option String
deriving DecidableEq, Repr

/-- Go `type Log struct`. -/
structure Log where
  ID : Int
  Timestamp : Time
  Service : String
  Level : String
  Message : String
  SourceIP : String
deriving DecidableEq, Repr

/-- Go `sql.NullString`. -/
structure NullString where
  String : String
  Valid : Bool
deriving DecidableEq, Repr

/-- A Go slice: `none` is `nil`. -/
abbrev GoSlice (α : Type) := Option (List α)

/-- Go `append(s, x)`. -/
def GoSlice.append {α : Type} (s : GoSlice α) (x : α) : GoSlice α :=
  match s with
  | none => some [x]
  | some xs => some (xs ++ [x])

/-- The elements of a slice. -/
def GoSlice.toList {α : Type} (s : GoSlice α) : List α :=
  match s with
  | none => []
  | some xs => xs

/-- The entry `map[string]any{"service": service, "count": count}`. -/
structure ServiceCount where
  service : String
  count : Int
deriving DecidableEq, Repr

/-- The entry `map[string]any{"source_ip": ip, "count": count}`. -/
structure IPCount where
  source_ip : String
  count : Int
deriving DecidableEq, Repr

/-- Go `type Stats struct`. -/
structure Stats where
  TotalAttacks : Int
  ByService : GoSlice ServiceCount
  TopIPs : GoSlice IPCount
deriving DecidableEq, Repr

/-! ## JSON values, as written by `encoding/json` -/

/-- A JSON value.  `time t` is the JSON string holding the RFC 3339 form of `t`. -/
inductive JSON where
  | null : JSON
  | num : Int → JSON
  | str : String → JSON
  | time : Time → JSON
  | arr : List JSON → JSON
  | obj : List (String × JSON) → JSON

/-- Whether a JSON value is an array. -/
def JSON.isArray : JSON → Bool
  | JSON.arr _ => true
  | _ => false

/-- Encoding of a slice: `nil` becomes `null`. -/
def encodeSlice {α : Type} (f : α → JSON) (s : GoSlice α) : JSON :=
  match s with
  | none => JSON.null
  | some xs => JSON.arr (xs.map f)

/-- Encoding of a `Log`, fields in declaration order under their `json` tags. -/
def Log.toJSON (l : Log) : JSON :=
  JSON.obj [("id", JSON.num l.ID), ("timestamp", JSON.time l.Timestamp),
    ("service", JSON.str l.Service), ("level", JSON.str l.Level),
    ("message", JSON.str l.Message), ("source_ip", JSON.str l.SourceIP)]

/-- Encoding of a by-service entry (map keys are written sorted). -/
def ServiceCount.toJSON (e : ServiceCount) : JSON :=
  JSON.obj [("count", JSON.num e.count), ("service", JSON.str e.service)]

/-- Encoding of a top-IP entry (map keys are written sorted). -/
def IPCount.toJSON (e : IPCount) : JSON :=
  JSON.obj [("count", JSON.num e.count), ("source_ip", JSON.str e.source_ip)]

/-- Encoding of `Stats`. -/
def Stats.toJSON (s : Stats) : JSON :=
  JSON.obj [("total_attacks", JSON.num s.TotalAttacks),
    ("by_service", encodeSlice ServiceCount.toJSON s.ByService),
    ("top_ips", encodeSlice IPCount.toJSON s.TopIPs)]

/-! ## HTTP response writer -/

/-- What a handler wrote to the response body. -/
inductive Chunk where
  | text : String → Chunk
  | logs : GoSlice Log → Chunk
  | stats : Stats → Chunk
deriving DecidableEq, Repr

/-- State of an `http.ResponseWriter`. -/
structure ResponseWriter where
  header : List (String × String)
  status : Option Nat
  body : List Chunk
deriving DecidableEq, Repr

/-- A fresh response writer. -/
def ResponseWriter.new : ResponseWriter := ⟨[], none, []⟩

/-- Go `w.Header().Set(k, v)`. -/
def ResponseWriter.setHeader (w : ResponseWriter) (k v : String) : ResponseWriter :=
  { w with header := (k, v) :: w.header.filter (fun p => p.1 ≠ k) }

/-- Go `w.WriteHeader(code)`: the first status written stays. -/
def ResponseWriter.writeHeader (w : ResponseWriter) (code : Nat) : ResponseWriter :=
  match w.status with
  | none => { w with status := some code }
  | some _ => w

/-- Go `w.Write`: an unset status becomes 200. -/
def ResponseWriter.write (w : ResponseWriter) (c : Chunk) : ResponseWriter :=
  { w.writeHeader 200 with body := w.body ++ [c] }

/-- Go `http.Error(w, msg, code)`. -/
def httpError (w : ResponseWriter) (msg : String) (code : Nat) : ResponseWriter :=
  (((w.setHeader "Content-Type" "text/plain; charset=utf-8").setHeader
    "X-Content-Type-Options" "nosniff").writeHeader code).write (Chunk.text (msg ++ "\n"))

/-- The status code the client receives: 200 when the handler set none. -/
def ResponseWriter.code (w : ResponseWriter) : Nat := w.status.getD 200

/-- The event list written by the handler, when it wrote one. -/
def ResponseWriter.events (w : ResponseWriter) : List Log :=
  match w.body with
  | [Chunk.logs s] => s.toList
  | _ => []

/-- The JSON document in the body, when the handler encoded one. -/
def ResponseWriter.json (w : ResponseWriter) : Option JSON :=
  match w.body with
  | [Chunk.logs s] => some (encodeSlice Log.toJSON s)
  | [Chunk.stats s] => some s.toJSON
  | _ => none

/-- The snapshot written by the handler, when it wrote one. -/
def ResponseWriter.snapshot (w : ResponseWriter) : Option Stats :=
  match w.body with
  | [Chunk.stats s] => some s
  | _ => none

/-! ## The event store -/

/-- The four statements the handlers issue. -/
inductive Query where
  | count
  | byService
  | topIPs
  | recent
deriving DecidableEq, Repr

/-- How a statement can fail: the call itself returns `err` (`query`), or the call
succeeds and `rows.Next()` gives up after `k` rows, leaving the error in
`rows.Err()` (`read`). -/
inductive Fault where
  | query : String → Fault
  | read : Nat → String → Fault
deriving DecidableEq, Repr

/-- The store: the content of `logs`, and for each statement how it fails, if it
fails. -/
structure DB where
  logs : List Row
  fault : Query → Option Fault

/-- A result row of the two `GROUP BY` statements: the key column and `COUNT(*)`. -/
abbrev GroupRow := Option String × Int

/-- The meaning of `SELECT k, COUNT(*) FROM .. GROUP BY k` on the key column. -/
def groupCount (keys : List (Option String)) : List GroupRow :=
  keys.dedup.map fun k => (k, ((keys.filter fun x => decide (x = k)).length : Int))

/-- The order of `ORDER BY id DESC`. -/
def idDesc (a b : Row) : Prop := b.id ≤ a.id

instance : DecidableRel idDesc := fun a b => inferInstanceAs (Decidable (b.id ≤ a.id))

instance : IsTotal Row idDesc := ⟨fun a b => le_total b.id a.id⟩

instance : IsTrans Row idDesc := ⟨fun _ _ _ h1 h2 => le_trans h2 h1⟩

/-- The order of `ORDER BY count DESC`. -/
def countDesc (a b : GroupRow) : Prop := b.2 ≤ a.2

instance : DecidableRel countDesc := fun a b => inferInstanceAs (Decidable (b.2 ≤ a.2))

instance : IsTotal GroupRow countDesc := ⟨fun a b => le_total b.2 a.2⟩

instance : IsTrans GroupRow countDesc := ⟨fun _ _ _ h1 h2 => le_trans h2 h1⟩

/-- The filter `source_ip IS NOT NULL AND source_ip != ''`. -/
def hasIP (k : Option String) : Bool :=
  match k with
  | none => false
  | some s => s != ""

/-- Run a statement through `db.Query` and iterate with `rows.Next()`: the error of the
call, or the rows the loop gets to see.  No handler consults `rows.Err()`, so a result
that breaks off is seen as the rows read so far. -/
def DB.run {α : Type} (db : DB) (q : Query) (rows : List α) : Except String (List α) :=
  match db.fault q with
  | some (Fault.query e) => Except.error e
  | some (Fault.read k _) => Except.ok (rows.take k)
  | none => Except.ok rows

/-- `db.QueryRow("SELECT COUNT(*) FROM logs").Scan(&stats.TotalAttacks)`: `Scan` of a
single row reports a failed read as well. -/
def DB.queryCount (db : DB) : Except String Int :=
  match db.fault Query.count with
  | some (Fault.query e) => Except.error e
  | some (Fault.read _ e) => Except.error e
  | none => Except.ok (db.logs.length : Int)

/-- `SELECT service, COUNT(*) as count FROM logs GROUP BY service`. -/
def DB.queryByService (db : DB) : Except String (List GroupRow) :=
  db.run Query.byService (groupCount (db.logs.map Row.service))

/-- `SELECT source_ip, COUNT(*) as count FROM logs WHERE source_ip IS NOT NULL
AND source_ip != '' GROUP BY source_ip ORDER BY count DESC LIMIT 5`. -/
def DB.queryTopIPs (db : DB) : Except String (List GroupRow) :=
  db.run Query.topIPs
    (((groupCount ((db.logs.map Row.source_ip).filter hasIP)).insertionSort countDesc).take 5)

/-- `SELECT id, timestamp, service, level, message, source_ip FROM logs
ORDER BY id DESC LIMIT 10`. -/
def DB.queryRecent (db : DB) : Except String (List Row) :=
  db.run Query.recent ((db.logs.insertionSort idDesc).take 10)

/-! ## `rows.Scan` -/

/-- Store a column into a destination that cannot hold `NULL`. -/
def scanNotNull {α : Type} (col : String) (v : Option α) : Except String α :=
  match v with
  | none => Except.error ("sql: Scan error on column " ++ col ++ ": converting NULL is unsupported")
  | some a => Except.ok a

/-- Store a column into a `sql.NullString`. -/
def scanNullString (v : Option String) : NullString :=
  match v with
  | none => ⟨"", false⟩
  | some s => ⟨s, true⟩

/-- The call `rows.Scan(&l.ID, &l.Timestamp, &l.Service, &l.Level, &l.Message, &sourceIP)`
on a fresh `l`: the filled `l` (its `SourceIP` still zero) and `sourceIP`, or the error. -/
def scanLog (r : Row) : Except String (Log × NullString) := do
  let ts ← scanNotNull "timestamp" r.timestamp
  let service ← scanNotNull "service" r.service
  let level ← scanNotNull "level" r.level
  let message ← scanNotNull "message" r.message
  pure (⟨r.id, ts, service, level, message, ""⟩, scanNullString r.source_ip)

/-- The call `rows.Scan(&key, &count)` of the two loops of `getStats`, whose error is
dropped: the values of `key` and `count` afterwards, starting from their zero values.
A `NULL` key stops the scan before `count` is assigned. -/
def scanGroup (r : GroupRow) : String × Int :=
  match r.1 with
  | none => ("", 0)
  | some s => (s, r.2)

/-- Whether `rows.Scan(&key, &count)` returned an error on this row. -/
def scanGroupFails (r : GroupRow) : Bool := r.1.isNone

/-! ## `getRecentAttacks` -/

/-- The body of `for rows.Next() { .. }` in `getRecentAttacks`, from the current `logs`. -/
def recentLoop (rows : List Row) (logs : GoSlice Log) : GoSlice Log :=
  match rows with
  | [] => logs
  | r :: rest =>
    match scanLog r with
    | Except.error _ => recentLoop rest logs
    | Except.ok (l, sourceIP) =>
      let l := if sourceIP.Valid then { l with SourceIP := sourceIP.String } else l
      recentLoop rest (logs.append l)

/-- Handler of `GET /api/attacks`. -/
def getRecentAttacks (db : DB) : ResponseWriter :=
  let w := (ResponseWriter.new.setHeader "Content-Type" "application/json").setHeader
    "Access-Control-Allow-Origin" "*"
  match db.queryRecent with
  | Except.error err => httpError w err 500
  | Except.ok rows => w.write (Chunk.logs (recentLoop rows none))

/-! ## `getStats` -/

/-- The first `for rows.Next() { .. }` of `getStats`. -/
def byServiceLoop (rows : List GroupRow) (acc : GoSlice ServiceCount) : GoSlice ServiceCount :=
  match rows with
  | [] => acc
  | r :: rest =>
    let (service, count) := scanGroup r
    byServiceLoop rest (acc.append ⟨service, count⟩)

/-- The second `for rows.Next() { .. }` of `getStats`. -/
def topIPsLoop (rows : List GroupRow) (acc : GoSlice IPCount) : GoSlice IPCount :=
  match rows with
  | [] => acc
  | r :: rest =>
    let (ip, count) := scanGroup r
    topIPsLoop rest (acc.append ⟨ip, count⟩)

/-- Handler of `GET /api/stats`. -/
def getStats (db : DB) : ResponseWriter :=
  let w := (ResponseWriter.new.setHeader "Content-Type" "application/json").setHeader
    "Access-Control-Allow-Origin" "*"
  let stats : Stats := ⟨0, none, none⟩
  match db.queryCount with
  | Except.error err => httpError w err 500
  | Except.ok total =>
    let stats := { stats with TotalAttacks := total }
    match db.queryByService with
    | Except.error err => httpError w err 500
    | Except.ok rows =>
      let stats := { stats with ByService := byServiceLoop rows stats.ByService }
      match db.queryTopIPs with
      | Except.error err => httpError w err 500
      | Except.ok rows =>
        let stats := { stats with TopIPs := topIPsLoop rows stats.TopIPs }
        w.write (Chunk.stats stats)

/-! ## `handleFalcoWebhook` -/

/-- An HTTP request, as far as a handler can read it. -/
structure Request where
  method : String
  path : String
  body : String
deriving DecidableEq, Repr

/-- Handler of `POST /api/falco`: the response and the lines it logged. -/
def handleFalcoWebhook (_db : DB) (_r : Request) : ResponseWriter × List String :=
  let logged := ["Received Falco Alert"]
  (ResponseWriter.new.writeHeader 200, logged)

/-! ## `handleTopologyWS` -/

/-- A node of a topology frame. -/
structure Node where
  id : Int
  label : String
  group : String
deriving DecidableEq, Repr

/-- An edge of a topology frame (`from`, `to`). -/
structure Edge where
  from_ : Int
  to_ : Int
deriving DecidableEq, Repr

/-- A topology frame. -/
structure Topology where
  nodes : List Node
  edges : List Edge
deriving DecidableEq, Repr

/-- The frame built in every iteration of the loop. -/
def topology : Topology :=
  { nodes := [⟨1, "Honeypot", "server"⟩, ⟨2, "Attacker 1", "attacker"⟩],
    edges := [⟨2, 1⟩] }

/-- Node ids are unique and every edge joins two nodes of the frame. -/
def Topology.wellFormed (t : Topology) : Prop :=
  (t.nodes.map Node.id).Nodup ∧
    ∀ e ∈ t.edges, e.from_ ∈ t.nodes.map Node.id ∧ e.to_ ∈ t.nodes.map Node.id

/-- The peer and the transport: whether the upgrade succeeds, and whether the
`k`-th call of `WriteJSON` (counted from 0) returns without error. -/
structure Transport where
  upgradeOk : Bool
  writeOk : Nat → Bool

/-- What a session does, in order. -/
inductive Action where
  | logUpgradeError : Action
  | push : Topology → Bool → Action
  | sleep : Nat → Action
deriving DecidableEq, Repr

/-- The states of a viewer session. -/
inductive Phase where
  | Connecting
  | Streaming
  | Closed
deriving DecidableEq, Repr

/-- A viewer session: its state and what it did so far. -/
structure Session where
  phase : Phase
  writes : Nat
  trace : List Action
deriving DecidableEq, Repr

/-- A session about to run `handleTopologyWS`. -/
def Session.init : Session := ⟨Phase.Connecting, 0, []⟩

/-- One step of `handleTopologyWS`: the upgrade when `Connecting`, one iteration of
`for { .. }` when `Streaming`.  The handler returns only when the upgrade fails; the
result of `c.WriteJSON` is not looked at. -/
def step (t : Transport) (s : Session) : Session :=
  match s.phase with
  | Phase.Connecting =>
    if t.upgradeOk then { s with phase := Phase.Streaming }
    else { s with phase := Phase.Closed, trace := s.trace ++ [Action.logUpgradeError] }
  | Phase.Streaming =>
    { s with
      writes := s.writes + 1
      trace := s.trace ++ [Action.push topology (t.writeOk s.writes), Action.sleep 5] }
  | Phase.Closed => s

/-- The session after `n` steps. -/
def run (t : Transport) (n : Nat) (s : Session) : Session :=
  match n with
  | 0 => s
  | n + 1 => run t n (step t s)

/-- The calls of `WriteJSON` in a trace. -/
def pushes (tr : List Action) : List (Topology × Bool) :=
  tr.filterMap fun a =>
    match a with
    | Action.push f ok => some (f, ok)
    | _ => none

/-- The time slept in a trace, in seconds. -/
def slept (tr : List Action) : Nat :=
  (tr.map fun a =>
    match a with
    | Action.sleep d => d
    | _ => 0).sum


/-- The trace of `n` iterations of the loop, the first of them making write number `k`:
per iteration one push of the frame, then one sleep of 5 seconds. -/
def loopTrace (t : Transport) (k : Nat) : Nat → List Action
  | 0 => []
  | n + 1 => Action.push topology (t.writeOk k) :: Action.sleep 5 :: loopTrace t (k + 1) n

/-- A peer that accepts the upgrade and is gone afterwards: every write fails. -/
def deadPeer : Transport := ⟨true, fun _ => false⟩

/-- A peer that stays: every write succeeds. -/
def livePeer : Transport := ⟨true, fun _ => true⟩

/-! ## Reading of the feed: which rows decode, and the event of a row -/

/-- A row decodes when `rows.Scan` returns no error on it. -/
def decodes (r : Row) : Bool := (scanLog r).toBool

/-- The event of a row as the specification describes it: the fields of the row,
a missing `source_ip` as the empty string. -/
def Row.event (r : Row) : Log :=
  ⟨r.id, r.timestamp.getD 0, r.service.getD "", r.level.getD "", r.message.getD "",
    r.source_ip.getD ""⟩

/-- The row carries over into the event: every field unchanged, a missing
`source_ip` as the empty string. -/
def carries (r : Row) (e : Log) : Prop :=
  e.ID = r.id ∧ r.timestamp = some e.Timestamp ∧ r.service = some e.Service ∧
    r.level = some e.Level ∧ r.message = some e.Message ∧
    e.SourceIP = (match r.source_ip with
      | some ip => ip
      | none => "")

/-- The number of events of the store that came from the address `ip`. -/
def DB.ipCount (db : DB) (ip : String) : Nat :=
  ((db.logs.map Row.source_ip).filter fun k => decide (k = some ip)).length

/-- The counts of the example: A and B ten each, C nine, D eight, E seven, F six, no
other address. -/
def exampleCounts (ip : String) : Nat :=
  if ip = "A" then 10 else if ip = "B" then 10 else if ip = "C" then 9
  else if ip = "D" then 8 else if ip = "E" then 7 else if ip = "F" then 6 else 0

/-- The groups of the example. -/
def exampleGroups : List GroupRow :=
  [(some "A", 10), (some "B", 10), (some "C", 9), (some "D", 8), (some "E", 7), (some "F", 6)]

/-! ## Sample stores -/

/-- A store that answers every statement. -/
def DB.healthy (logs : List Row) : DB := ⟨logs, fun _ => none⟩

/-- An event row with every column set. -/
def sampleRow (i : Int) : Row :=
  ⟨i, some 1700000000, some "ssh", some "WARNING", some "login attempt", some "203.0.113.7"⟩

/-- Events with ids 1..12, inserted in that order. -/
def store12 : DB := DB.healthy ((List.range 12).map fun i => sampleRow ((i : Int) + 1))

/-- Three rows; the middle one has no timestamp and does not decode, the last has
no `source_ip`. -/
def store3 : DB :=
  DB.healthy [sampleRow 1, ⟨2, none, some "ftp", some "INFO", some "probe", some "198.51.100.2"⟩,
    ⟨3, some 1700000100, some "http", some "INFO", some "GET /admin", none⟩]

/-- A store whose only row does not decode. -/
def storeBad : DB := DB.healthy [⟨1, none, some "ftp", some "INFO", some "probe", none⟩]

/-- Two events of two services; the by-service result breaks off after its first row. -/
def storeBroken : DB :=
  { logs := [sampleRow 1, ⟨2, some 1700000050, some "ftp", some "INFO", some "probe", none⟩],
    fault := fun q =>
      match q with
      | Query.byService => some (Fault.read 1 "invalid connection")
      | _ => none }

/-- One row without a service. -/
def storeNullService : DB :=
  DB.healthy [⟨1, some 1700000000, none, some "INFO", some "probe", some "198.51.100.2"⟩]

/-- A store whose top-IPs statement is refused. -/
def storeDown : DB :=
  { logs := [sampleRow 1],
    fault := fun q =>
      match q with
      | Query.topIPs => some (Fault.query "invalid connection")
      | _ => none }

/-- An event row from the given address. -/
def ipRow (ip : String) (i : Nat) : Row :=
  ⟨(i : Int) + 1, some 1700000000, some "ssh", some "WARNING", some "login attempt", some ip⟩

/-- Events from six addresses: A and B ten each, C nine, D eight, E seven, F six. -/
def storeIPs : DB :=
  DB.healthy (List.zipWith ipRow
    (List.replicate 10 "A" ++ List.replicate 10 "B" ++ List.replicate 9 "C" ++
      List.replicate 8 "D" ++ List.replicate 7 "E" ++ List.replicate 6 "F")
    (List.range 50))

/-! ## Lemmas on slices and on the loops -/

theorem toList_append {α : Type} (s : GoSlice α) (x : α) :
    (s.append x).toList = s.toList ++ [x] := by
  cases s <;> rfl

theorem recentLoop_toList (rows : List Row) (acc : GoSlice Log) :
    (recentLoop rows acc).toList = acc.toList ++ (rows.filter decodes).map Row.event := by
  induction rows generalizing acc with
  | nil => simp [recentLoop]
  | cons r rest ih =>
    rcases r with ⟨id, ts, sv, lv, ms, ip⟩
    cases ts <;> cases sv <;> cases lv <;> cases ms <;> cases ip <;>
      simp [recentLoop, scanLog, scanNotNull, decodes, ih, toList_append, Row.event,
        scanNullString, Except.toBool, bind, Except.bind, pure, Except.pure]

theorem append_ne_none {α : Type} (s : GoSlice α) (x : α) : s.append x ≠ none := by
  cases s <;> simp [GoSlice.append]

theorem recentLoop_none_iff (rows : List Row) (acc : GoSlice Log) :
    recentLoop rows acc = none ↔ acc = none ∧ rows.filter decodes = [] := by
  induction rows generalizing acc with
  | nil => simp [recentLoop]
  | cons r rest ih =>
    unfold recentLoop
    cases h : scanLog r with
    | error e => simp [decodes, h, Except.toBool, ih]
    | ok p =>
      obtain ⟨l, ns⟩ := p
      simp [decodes, h, Except.toBool, ih, append_ne_none]

/-! ## Lemmas on the recent-events statement -/

theorem queryRecent_sublist (db : DB) (rows : List Row)
    (h : db.queryRecent = Except.ok rows) :
    rows.Sublist ((db.logs.insertionSort idDesc).take 10) := by
  unfold DB.queryRecent DB.run at h
  cases hf : db.fault Query.recent with
  | none => rw [hf] at h; rw [← Except.ok.inj h]
  | some f =>
    rw [hf] at h
    cases f with
    | query e => cases h
    | read k e => rw [← Except.ok.inj h]; exact List.take_sublist _ _

theorem events_of_ok (db : DB) (rows : List Row) (h : db.queryRecent = Except.ok rows) :
    (getRecentAttacks db).events = (rows.filter decodes).map Row.event := by
  have h0 : GoSlice.toList (none : GoSlice Log) = [] := rfl
  simp [getRecentAttacks, h, ResponseWriter.write, ResponseWriter.events, recentLoop_toList,
    h0, ResponseWriter.setHeader, ResponseWriter.new]

theorem events_of_error (db : DB) (e : String) (h : db.queryRecent = Except.error e) :
    (getRecentAttacks db).events = [] := by
  simp [getRecentAttacks, h, ResponseWriter.write, ResponseWriter.events, httpError,
    ResponseWriter.writeHeader, ResponseWriter.setHeader, ResponseWriter.new]

theorem ids_sublist (db : DB) :
    ((getRecentAttacks db).events.map Log.ID).Sublist
      (((db.logs.insertionSort idDesc).take 10).map Row.id) := by
  cases h : db.queryRecent with
  | error e => rw [events_of_error db e h]; simp
  | ok rows =>
    rw [events_of_ok db rows h, List.map_map]
    have : Log.ID ∘ Row.event = Row.id := rfl
    rw [this]
    exact ((List.filter_sublist rows).trans (queryRecent_sublist db rows h)).map Row.id

theorem sorted_ids (l : List Row) : ((l.insertionSort idDesc).map Row.id).Sorted (· ≥ ·) := by
  have h := List.sorted_insertionSort idDesc l
  exact List.pairwise_map.mpr h

theorem carries_event (r : Row) (h : decodes r = true) : carries r r.event := by
  rcases r with ⟨id, ts, sv, lv, ms, ip⟩
  cases ts <;> cases sv <;> cases lv <;> cases ms <;>
    first
    | (exfalso; revert h
       simp [decodes, scanLog, scanNotNull, Except.toBool, bind, Except.bind]; done)
    | (cases ip <;> simp [carries, Row.event])

theorem code_of_ok (db : DB) (rows : List Row) (h : db.queryRecent = Except.ok rows) :
    (getRecentAttacks db).code = 200 := by
  simp [getRecentAttacks, h, ResponseWriter.write, ResponseWriter.code,
    ResponseWriter.writeHeader, ResponseWriter.setHeader, ResponseWriter.new]

/-! ## The recent feed -/

/-- C1: the event list of `getRecentAttacks` has at most 10 entries and its ids
descend; they descend strictly when the ids of the store are distinct; and for a
store holding decodable events with ids 1..12 the ids returned are
12, 11, .., 3 in that order. -/
theorem getRecentAttacks_bounded_desc (db : DB) :
    (getRecentAttacks db).events.length ≤ 10 ∧
    ((getRecentAttacks db).events.map Log.ID).Sorted (· ≥ ·) ∧
    ((db.logs.map Row.id).Nodup → ((getRecentAttacks db).events.map Log.ID).Sorted (· > ·)) ∧
    (db.fault Query.recent = none → db.logs.map Row.id = [1, 2, 3, 4, 5, 6, 7, 8, 9, 10, 11, 12] →
      (∀ r ∈ db.logs, decodes r = true) →
      (getRecentAttacks db).events.map Log.ID = [12, 11, 10, 9, 8, 7, 6, 5, 4, 3]) := by
  have hsub := ids_sublist db
  have hs : (((db.logs.insertionSort idDesc).take 10).map Row.id).Sorted (· ≥ ·) := by
    rw [List.map_take]
    exact (sorted_ids db.logs).sublist (List.take_sublist _ _)
  refine ⟨?_, hs.sublist hsub, ?_, ?_⟩
  · have := hsub.length_le
    simp only [List.length_map, List.length_take] at this
    omega
  · intro hnd
    have hnd1 : ((db.logs.insertionSort idDesc).map Row.id).Nodup :=
      ((List.perm_insertionSort idDesc db.logs).map Row.id).nodup_iff.mpr hnd
    have hnd2 : ((getRecentAttacks db).events.map Log.ID).Nodup := by
      refine List.Nodup.sublist hsub ?_
      rw [List.map_take]
      exact hnd1.sublist (List.take_sublist _ _)
    have hp := (hs.sublist hsub).and hnd2
    exact hp.imp fun h => lt_of_le_of_ne h.1 (Ne.symm h.2)
  · intro hf hids hdec
    have hq : db.queryRecent = Except.ok ((db.logs.insertionSort idDesc).take 10) := by
      simp [DB.queryRecent, DB.run, hf]
    have hall : ∀ r ∈ (db.logs.insertionSort idDesc).take 10, decodes r = true := fun r hr =>
      hdec r ((List.perm_insertionSort idDesc db.logs).subset ((List.take_sublist _ _).subset hr))
    have hsorted : (db.logs.insertionSort idDesc).map Row.id
        = [12, 11, 10, 9, 8, 7, 6, 5, 4, 3, 2, 1] := by
      refine List.eq_of_perm_of_sorted ?_ (sorted_ids db.logs) (by decide)
      refine ((List.perm_insertionSort idDesc db.logs).map Row.id).trans ?_
      rw [hids]
      decide
    rw [events_of_ok db _ hq, List.filter_eq_self.mpr hall, List.map_map]
    have : Log.ID ∘ Row.event = Row.id := rfl
    rw [this, List.map_take, hsorted]
    rfl

/-- Instance of C1 on the store of twelve events. -/
theorem getRecentAttacks_bounded_desc_witness :
    (getRecentAttacks store12).events.map Log.ID = [12, 11, 10, 9, 8, 7, 6, 5, 4, 3] :=
  (getRecentAttacks_bounded_desc store12).2.2.2 rfl (by decide) (by decide)

/-- C4: when the recent-events statement succeeds, the request succeeds and the list
produced is exactly the rows that decode, in the order the statement returned them;
rows that do not decode are left out and nothing else is. -/
theorem getRecentAttacks_skips_undecodable (db : DB) (rows : List Row)
    (h : db.queryRecent = Except.ok rows) :
    (getRecentAttacks db).code = 200 ∧
    (getRecentAttacks db).body = [Chunk.logs (recentLoop rows none)] ∧
    (getRecentAttacks db).events = (rows.filter fun r => decodes r).map Row.event ∧
    ∀ r ∈ rows, decodes r = true → carries r r.event :=
  ⟨code_of_ok db rows h, by simp [getRecentAttacks, h, ResponseWriter.write,
      ResponseWriter.setHeader, ResponseWriter.new], events_of_ok db rows h,
    fun r _ hr => carries_event r hr⟩

/-- Instance of C4: of three rows the undecodable middle one is left out and the
two around it are kept, newest first. -/
theorem getRecentAttacks_skips_undecodable_witness :
    (getRecentAttacks store3).code = 200 ∧
    (getRecentAttacks store3).events.map Log.ID = [3, 1] := by
  have h := getRecentAttacks_skips_undecodable store3
    [⟨3, some 1700000100, some "http", some "INFO", some "GET /admin", none⟩,
      ⟨2, none, some "ftp", some "INFO", some "probe", some "198.51.100.2"⟩, sampleRow 1] rfl
  exact ⟨h.1, by rw [h.2.2.1]; rfl⟩

/-- C7: when the recent-events statement succeeds, every row that decodes has its
event in the list, carrying the id, timestamp, service, level and message of the row
unchanged and as `source_ip` the one of the row, or the empty string when the row has
none; it is written as a JSON string, never as `null`.  Every event of the list
stems from such a row. -/
theorem getRecentAttacks_event_fields (db : DB) (rows : List Row)
    (h : db.queryRecent = Except.ok rows) :
    (∀ r ∈ rows, decodes r = true → ∃ e ∈ (getRecentAttacks db).events, carries r e ∧
      e.toJSON = JSON.obj [("id", JSON.num r.id), ("timestamp", JSON.time e.Timestamp),
        ("service", JSON.str e.Service), ("level", JSON.str e.Level),
        ("message", JSON.str e.Message), ("source_ip", JSON.str (r.source_ip.getD ""))]) ∧
    (∀ e ∈ (getRecentAttacks db).events, ∃ r ∈ rows, decodes r = true ∧ carries r e) := by
  rw [events_of_ok db rows h]
  constructor
  · intro r hr hd
    refine ⟨r.event, List.mem_map.mpr ⟨r, List.mem_filter.mpr ⟨hr, hd⟩, rfl⟩,
      carries_event r hd, ?_⟩
    simp [Log.toJSON, Row.event]
  · intro e he
    obtain ⟨r, hr, rfl⟩ := List.mem_map.mp he
    obtain ⟨hr1, hr2⟩ := List.mem_filter.mp hr
    exact ⟨r, hr1, hr2, carries_event r hr2⟩

/-- Instance of C7: the row with id 3 has no `source_ip`; its event has the empty
string. -/
theorem getRecentAttacks_event_fields_witness :
    ∃ e ∈ (getRecentAttacks store3).events, e.ID = 3 ∧ e.Service = "http" ∧ e.SourceIP = "" := by
  obtain ⟨e, he, hc, _⟩ := (getRecentAttacks_event_fields store3
    [⟨3, some 1700000100, some "http", some "INFO", some "GET /admin", none⟩,
      ⟨2, none, some "ftp", some "INFO", some "probe", some "198.51.100.2"⟩, sampleRow 1] rfl).1
    ⟨3, some 1700000100, some "http", some "INFO", some "GET /admin", none⟩
    (List.mem_cons_self _ _) rfl
  refine ⟨e, he, hc.1, ?_, hc.2.2.2.2.2⟩
  have := hc.2.2.1
  simpa using this.symm

theorem json_of_ok (db : DB) (rows : List Row) (h : db.queryRecent = Except.ok rows) :
    (getRecentAttacks db).json = some (encodeSlice Log.toJSON (recentLoop rows none)) := by
  simp [getRecentAttacks, h, ResponseWriter.write, ResponseWriter.json,
    ResponseWriter.setHeader, ResponseWriter.new]

theorem json_null_of_none_decodes (db : DB) (rows : List Row)
    (h : db.queryRecent = Except.ok rows) (hnone : ∀ r ∈ rows, decodes r = false) :
    (getRecentAttacks db).json = some JSON.null := by
  have hfil : rows.filter decodes = [] :=
    List.filter_eq_nil_iff.mpr fun r hr => by simp [hnone r hr]
  rw [json_of_ok db rows h, (recentLoop_none_iff rows none).mpr ⟨rfl, hfil⟩]
  rfl

/-- C9, on the code: for the empty store, and for a store whose only row does not
decode, the statement succeeds, the status is 200 and the body is JSON `null`, which
is not an array. -/
theorem getRecentAttacks_null_body :
    (getRecentAttacks (DB.healthy [])).code = 200 ∧
    (getRecentAttacks (DB.healthy [])).json = some JSON.null ∧
    (getRecentAttacks storeBad).code = 200 ∧
    (getRecentAttacks storeBad).json = some JSON.null ∧
    JSON.null.isArray = false :=
  ⟨rfl, rfl, rfl, rfl, rfl⟩

/-! ## The alert endpoint -/

/-- C2: whatever the request and the store, `handleFalcoWebhook` answers with status
200 and writes nothing to the body. -/
theorem handleFalcoWebhook_always_ok (db : DB) (r : Request) :
    (handleFalcoWebhook db r).1.code = 200 ∧ (handleFalcoWebhook db r).1.body = [] :=
  ⟨rfl, rfl⟩

/-! ## Lemmas on `getStats` -/

theorem byServiceLoop_toList (rows : List GroupRow) (acc : GoSlice ServiceCount) :
    (byServiceLoop rows acc).toList
      = acc.toList ++ rows.map fun r => ⟨(scanGroup r).1, (scanGroup r).2⟩ := by
  induction rows generalizing acc with
  | nil => simp [byServiceLoop]
  | cons r rest ih => simp [byServiceLoop, ih, toList_append]

theorem topIPsLoop_toList (rows : List GroupRow) (acc : GoSlice IPCount) :
    (topIPsLoop rows acc).toList
      = acc.toList ++ rows.map fun r => ⟨(scanGroup r).1, (scanGroup r).2⟩ := by
  induction rows generalizing acc with
  | nil => simp [topIPsLoop]
  | cons r rest ih => simp [topIPsLoop, ih, toList_append]

theorem getStats_ok (db : DB) (t : Int) (r1 r2 : List GroupRow)
    (h0 : db.queryCount = Except.ok t) (h1 : db.queryByService = Except.ok r1)
    (h2 : db.queryTopIPs = Except.ok r2) :
    getStats db = ((ResponseWriter.new.setHeader "Content-Type" "application/json").setHeader
      "Access-Control-Allow-Origin" "*").write
        (Chunk.stats ⟨t, byServiceLoop r1 none, topIPsLoop r2 none⟩) := by
  simp [getStats, h0, h1, h2]

theorem httpError_body (w : ResponseWriter) (msg : String) (code : Nat) :
    (httpError w msg code).body = w.body ++ [Chunk.text (msg ++ "\n")] := by
  cases hs : w.status <;>
    simp [httpError, ResponseWriter.write, ResponseWriter.writeHeader,
      ResponseWriter.setHeader, hs]

theorem httpError_code (w : ResponseWriter) (msg : String) (code : Nat)
    (h : w.status = none) : (httpError w msg code).code = code := by
  simp [httpError, ResponseWriter.write, ResponseWriter.writeHeader,
    ResponseWriter.setHeader, ResponseWriter.code, h]

theorem getStats_snapshot (db : DB) (s : Stats) (h : (getStats db).snapshot = some s) :
    ∃ t r1 r2, db.queryCount = Except.ok t ∧ db.queryByService = Except.ok r1 ∧
      db.queryTopIPs = Except.ok r2 ∧ s = ⟨t, byServiceLoop r1 none, topIPsLoop r2 none⟩ := by
  cases h0 : db.queryCount with
  | error e =>
    simp [getStats, h0, httpError_body, ResponseWriter.snapshot, ResponseWriter.setHeader,
      ResponseWriter.new] at h
  | ok t =>
    cases h1 : db.queryByService with
    | error e =>
      simp [getStats, h0, h1, httpError_body, ResponseWriter.snapshot,
        ResponseWriter.setHeader, ResponseWriter.new] at h
    | ok r1 =>
      cases h2 : db.queryTopIPs with
      | error e =>
        simp [getStats, h0, h1, h2, httpError_body, ResponseWriter.snapshot,
          ResponseWriter.setHeader, ResponseWriter.new] at h
      | ok r2 =>
        refine ⟨t, r1, r2, rfl, rfl, rfl, ?_⟩
        rw [getStats_ok db t r1 r2 h0 h1 h2] at h
        simp [ResponseWriter.write, ResponseWriter.snapshot, ResponseWriter.setHeader,
          ResponseWriter.new] at h
        exact h.symm

theorem queryTopIPs_sublist (db : DB) (rows : List GroupRow)
    (h : db.queryTopIPs = Except.ok rows) :
    rows.Sublist (((groupCount ((db.logs.map Row.source_ip).filter hasIP)).insertionSort
      countDesc).take 5) := by
  unfold DB.queryTopIPs DB.run at h
  cases hf : db.fault Query.topIPs with
  | none => rw [hf] at h; rw [← Except.ok.inj h]
  | some f =>
    rw [hf] at h
    cases f with
    | query e => cases h
    | read k e => rw [← Except.ok.inj h]; exact List.take_sublist _ _

theorem groupSize_eq (keys : List (Option String)) (k : Option String) :
    (keys.filter fun x => decide (x = k)).length
      = @List.count _ instBEqOfDecidableEq k keys := by
  unfold List.count
  rw [List.countP_eq_length_filter]
  rfl

theorem mem_groupCount (keys : List (Option String)) (g : GroupRow) (h : g ∈ groupCount keys) :
    g.1 ∈ keys ∧ g.2 = ((keys.filter fun x => decide (x = g.1)).length : Int) := by
  unfold groupCount at h
  obtain ⟨k, hk, rfl⟩ := List.mem_map.mp h
  exact ⟨List.mem_dedup.mp hk, rfl⟩

theorem hasIP_iff (k : Option String) : hasIP k = true ↔ ∃ ip, k = some ip ∧ ip ≠ "" := by
  cases k <;> simp [hasIP]

theorem sum_scanGroup (d : List (Option String)) (c : Option String → Nat) :
    (d.map fun k => (scanGroup (k, (c k : Int))).2).sum
      = (((d.filter fun k => k.isSome).map c).sum : Nat) := by
  induction d with
  | nil => simp
  | cons k rest ih =>
    cases k with
    | none => simpa [scanGroup] using ih
    | some v =>
      simp only [List.map_cons, List.sum_cons, Option.isSome_some, List.filter_cons_of_pos,
        Nat.cast_add, ih]
      rfl

theorem sum_groupCount (keys : List (Option String)) :
    ((groupCount keys).map fun r => (scanGroup r).2).sum
      + ((keys.filter fun k => decide (k = none)).length : Int) = (keys.length : Int) := by
  have h1 : (groupCount keys).map (fun r => (scanGroup r).2)
      = keys.dedup.map fun k =>
        (scanGroup (k, ((@List.count _ instBEqOfDecidableEq k keys : Nat) : Int))).2 := by
    unfold groupCount
    rw [List.map_map]
    refine List.map_congr_left fun k _ => ?_
    show (scanGroup (k, ((keys.filter fun x => decide (x = k)).length : Int))).2 = _
    rw [groupSize_eq]
  have h2 := List.sum_map_count_dedup_filter_eq_countP (fun k : Option String => k.isSome) keys
  have h3 : keys.length = keys.countP (fun k => k.isSome)
      + (keys.filter fun k => decide (k = none)).length := by
    rw [List.length_eq_countP_add_countP (fun k : Option String => k.isSome) keys,
      List.countP_eq_length_filter (fun k : Option String => ¬ k.isSome = true)]
    congr 2
    refine List.filter_congr fun k _ => ?_
    cases k <;> simp
  rw [h1, sum_scanGroup, h2, h3]
  push_cast
  rfl

/-! ## The statistics snapshot -/

/-- What `getStats` keeps of the totals when its three reads succeed: it answers 200
with a snapshot whose `total_attacks` is the number of events in the store, and is the
sum of the counts of its `by_service` entries plus the number of events that have no
service; the two agree exactly when no event lacks a service. -/
theorem getStats_total_decomposition (db : DB) (hf : ∀ q, db.fault q = none) :
    ∃ s, (getStats db).snapshot = some s ∧ (getStats db).code = 200 ∧
      s.TotalAttacks = (db.logs.length : Int) ∧
      s.TotalAttacks = (s.ByService.toList.map ServiceCount.count).sum
        + ((db.logs.filter fun r => decide (r.service = none)).length : Int) ∧
      ((∀ r ∈ db.logs, r.service ≠ none) →
        s.TotalAttacks = (s.ByService.toList.map ServiceCount.count).sum) := by
  have h0 : db.queryCount = Except.ok (db.logs.length : Int) := by
    simp [DB.queryCount, hf]
  have h1 : db.queryByService = Except.ok (groupCount (db.logs.map Row.service)) := by
    simp [DB.queryByService, DB.run, hf]
  have h2 : db.queryTopIPs = Except.ok (((groupCount ((db.logs.map Row.source_ip).filter
      hasIP)).insertionSort countDesc).take 5) := by
    simp [DB.queryTopIPs, DB.run, hf]
  have hz : GoSlice.toList (none : GoSlice ServiceCount) = [] := rfl
  have hsum := sum_groupCount (db.logs.map Row.service)
  rw [List.length_map, List.filter_map, List.length_map] at hsum
  have hfil : (db.logs.filter ((fun k => decide (k = none)) ∘ Row.service))
      = db.logs.filter fun r => decide (r.service = none) := rfl
  rw [hfil] at hsum
  refine ⟨⟨(db.logs.length : Int), byServiceLoop (groupCount (db.logs.map Row.service)) none,
    topIPsLoop (((groupCount ((db.logs.map Row.source_ip).filter hasIP)).insertionSort
      countDesc).take 5) none⟩, ?_, ?_, rfl, ?_, ?_⟩
  · rw [getStats_ok db _ _ _ h0 h1 h2]
    simp [ResponseWriter.write, ResponseWriter.snapshot, ResponseWriter.setHeader,
      ResponseWriter.new]
  · rw [getStats_ok db _ _ _ h0 h1 h2]
    simp [ResponseWriter.write, ResponseWriter.code, ResponseWriter.writeHeader,
      ResponseWriter.setHeader, ResponseWriter.new]
  · rw [byServiceLoop_toList, hz, List.nil_append, List.map_map]
    exact hsum.symm
  · intro hsvc
    have hnone : (db.logs.filter fun r => decide (r.service = none)) = [] :=
      List.filter_eq_nil_iff.mpr fun r hr => by simpa using hsvc r hr
    rw [hnone] at hsum
    rw [byServiceLoop_toList, hz, List.nil_append, List.map_map]
    simpa using hsum.symm

/-- The totals of the store of twelve events, all of one service, agree. -/
theorem getStats_total_decomposition_store12 :
    ∃ s, (getStats store12).snapshot = some s ∧ (getStats store12).code = 200 ∧
      s.TotalAttacks = 12 ∧
      s.TotalAttacks = (s.ByService.toList.map ServiceCount.count).sum := by
  obtain ⟨s, h1, h2, h3, _, h5⟩ := getStats_total_decomposition store12 (fun _ => rfl)
  exact ⟨s, h1, h2, h3, h5 (by decide)⟩

/-- C5, on the code: in `storeBroken` the read of the by-service rows breaks off
after one of two rows, in `storeNullService` the only by-service row does not decode;
both times `getStats` answers 200 with a snapshot instead of 500, the first lacking
the entry of `ftp`, the second holding the zero entry of the undecoded row. -/
theorem getStats_row_failure_not_aborted :
    (storeBroken.fault Query.byService = some (Fault.read 1 "invalid connection") ∧
      (getStats storeBroken).code = 200 ∧
      (getStats storeBroken).snapshot
        = some ⟨2, some [⟨"ssh", 1⟩], some [⟨"203.0.113.7", 1⟩]⟩) ∧
    (storeNullService.queryByService = Except.ok [(none, 1)] ∧
      scanGroupFails (none, 1) = true ∧
      (getStats storeNullService).code = 200 ∧
      (getStats storeNullService).snapshot
        = some ⟨1, some [⟨"", 0⟩], some [⟨"198.51.100.2", 1⟩]⟩) :=
  ⟨⟨rfl, by decide, by decide⟩, ⟨rfl, rfl, by decide, by decide⟩⟩

/-- The failures `getStats` does guard: when the count statement, the by-service
statement or the top-IPs statement returns an error, it answers 500 with the message
of that error and writes no snapshot; a snapshot is written, with status 200, only
when all three statements returned without error. -/
theorem getStats_query_failure_aborts (db : DB) :
    (∀ e, db.queryCount = Except.error e →
      (getStats db).code = 500 ∧ (getStats db).body = [Chunk.text (e ++ "\n")]) ∧
    (∀ t e, db.queryCount = Except.ok t → db.queryByService = Except.error e →
      (getStats db).code = 500 ∧ (getStats db).body = [Chunk.text (e ++ "\n")]) ∧
    (∀ t r1 e, db.queryCount = Except.ok t → db.queryByService = Except.ok r1 →
      db.queryTopIPs = Except.error e →
      (getStats db).code = 500 ∧ (getStats db).body = [Chunk.text (e ++ "\n")]) ∧
    (∀ s, (getStats db).snapshot = some s →
      (getStats db).code = 200 ∧ (getStats db).body = [Chunk.stats s] ∧
      ∃ t r1 r2, db.queryCount = Except.ok t ∧ db.queryByService = Except.ok r1 ∧
        db.queryTopIPs = Except.ok r2) := by
  refine ⟨?_, ?_, ?_, ?_⟩
  · intro e h0
    constructor
    · simp only [getStats, h0]; exact httpError_code _ _ _ rfl
    · simp only [getStats, h0, httpError_body]; rfl
  · intro t e h0 h1
    constructor
    · simp only [getStats, h0, h1]; exact httpError_code _ _ _ rfl
    · simp only [getStats, h0, h1, httpError_body]; rfl
  · intro t r1 e h0 h1 h2
    constructor
    · simp only [getStats, h0, h1, h2]; exact httpError_code _ _ _ rfl
    · simp only [getStats, h0, h1, h2, httpError_body]; rfl
  · intro s hs
    obtain ⟨t, r1, r2, h0, h1, h2, rfl⟩ := getStats_snapshot db s hs
    rw [getStats_ok db t r1 r2 h0 h1 h2]
    exact ⟨rfl, rfl, t, r1, r2, h0, h1, h2⟩

/-- A refused top-IPs statement: the answer is 500 and carries the message, not a
snapshot. -/
theorem getStats_query_failure_aborts_storeDown :
    (getStats storeDown).code = 500 ∧
    (getStats storeDown).body = [Chunk.text ("invalid connection" ++ "\n")] :=
  (getStats_query_failure_aborts storeDown).2.2.1 1 [(some "ssh", 1)] "invalid connection"
    rfl rfl rfl

/-- C8, on the code: `storeNullService` is a store that no statement fails on and
whose single event has no service; `getStats` answers 200 with `total_attacks` 1, the
number of events, while the counts of its `by_service` entries sum to 0.  In
`storeBroken`, whose by-service read breaks off, `total_attacks` is 2 and the counts
sum to 1. -/
theorem getStats_total_mismatch :
    ((∀ q, storeNullService.fault q = none) ∧
      (storeNullService.logs.length : Int) = 1 ∧
      (getStats storeNullService).code = 200 ∧
      ∃ s, (getStats storeNullService).snapshot = some s ∧ s.TotalAttacks = 1 ∧
        (s.ByService.toList.map ServiceCount.count).sum = 0) ∧
    ((storeBroken.logs.length : Int) = 2 ∧
      (∀ r ∈ storeBroken.logs, r.service ≠ none) ∧
      (getStats storeBroken).code = 200 ∧
      ∃ s, (getStats storeBroken).snapshot = some s ∧ s.TotalAttacks = 2 ∧
        (s.ByService.toList.map ServiceCount.count).sum = 1) :=
  ⟨⟨fun _ => rfl, rfl, by decide,
      ⟨1, some [⟨"", 0⟩], some [⟨"198.51.100.2", 1⟩]⟩, by decide, rfl, rfl⟩,
    ⟨rfl, by decide, by decide,
      ⟨2, some [⟨"ssh", 1⟩], some [⟨"203.0.113.7", 1⟩]⟩, by decide, rfl, rfl⟩⟩

/-! ## The top addresses -/

theorem mem_topGroups (db : DB) (g : GroupRow)
    (h : g ∈ groupCount ((db.logs.map Row.source_ip).filter hasIP)) :
    ∃ ip, g.1 = some ip ∧ ip ≠ "" ∧ g.2 = (db.ipCount ip : Int) ∧ 0 < db.ipCount ip := by
  obtain ⟨hk, hc⟩ := mem_groupCount _ g h
  obtain ⟨hk1, hk2⟩ := List.mem_filter.mp hk
  obtain ⟨ip, hip, hne⟩ := (hasIP_iff g.1).mp hk2
  have hcount : ((List.filter hasIP (db.logs.map Row.source_ip)).filter
      fun x => decide (x = g.1)).length = db.ipCount ip := by
    unfold DB.ipCount
    rw [List.filter_filter, hip]
    congr 1
    refine List.filter_congr fun k _ => ?_
    by_cases hke : k = some ip
    · subst hke; simp [hasIP, hne]
    · simp [hke]
  refine ⟨ip, hip, hne, by rw [hc, hcount], ?_⟩
  rw [← hcount]
  exact List.length_pos_of_mem (List.mem_filter.mpr ⟨hk, by simp⟩)

theorem scanGroup_topGroups (db : DB) (g : GroupRow)
    (h : g ∈ groupCount ((db.logs.map Row.source_ip).filter hasIP)) :
    (scanGroup g).2 = g.2 ∧ (scanGroup g).1 ≠ "" ∧
      g.2 = (db.ipCount (scanGroup g).1 : Int) ∧ 0 < db.ipCount (scanGroup g).1 := by
  obtain ⟨ip, hip, hne, hc, hpos⟩ := mem_topGroups db g h
  obtain ⟨k, c⟩ := g
  simp only at hip
  subst hip
  exact ⟨rfl, hne, hc, hpos⟩

theorem topIPs_entries (db : DB) (s : Stats) (h : (getStats db).snapshot = some s) :
    ∃ r2 : List GroupRow,
      r2.Sublist (((groupCount ((db.logs.map Row.source_ip).filter hasIP)).insertionSort
        countDesc).take 5) ∧
      s.TopIPs.toList = r2.map fun r => ⟨(scanGroup r).1, (scanGroup r).2⟩ := by
  obtain ⟨t, r1, r2, _, _, h2, rfl⟩ := getStats_snapshot db s h
  refine ⟨r2, queryTopIPs_sublist db r2 h2, ?_⟩
  have h0 : GoSlice.toList (none : GoSlice IPCount) = [] := rfl
  simp only [topIPsLoop_toList, h0, List.nil_append]

theorem top_universal (db : DB) (s : Stats) (h : (getStats db).snapshot = some s) :
    s.TopIPs.toList.length ≤ 5 ∧
    (s.TopIPs.toList.map IPCount.count).Sorted (· ≥ ·) ∧
    (∀ e ∈ s.TopIPs.toList, e.source_ip ≠ "" ∧ some e.source_ip ∈ db.logs.map Row.source_ip ∧
      e.count = (db.ipCount e.source_ip : Int)) := by
  obtain ⟨r2, hsub, hlist⟩ := topIPs_entries db s h
  have hmem : ∀ g ∈ r2, g ∈ groupCount ((db.logs.map Row.source_ip).filter hasIP) :=
    fun g hg => (List.perm_insertionSort countDesc _).subset
      ((List.take_sublist _ _).subset (hsub.subset hg))
  refine ⟨?_, ?_, ?_⟩
  · rw [hlist, List.length_map]
    have := hsub.length_le
    simp only [List.length_take] at this
    omega
  · rw [hlist, List.map_map]
    have hs : (((groupCount ((db.logs.map Row.source_ip).filter hasIP)).insertionSort
        countDesc).take 5).Sorted countDesc :=
      (List.sorted_insertionSort countDesc _).sublist (List.take_sublist _ _)
    have hs2 : r2.Sorted countDesc := hs.sublist hsub
    refine List.pairwise_map.mpr (hs2.imp_of_mem ?_)
    intro a b ha hb hab
    show (scanGroup b).2 ≤ (scanGroup a).2
    rw [(scanGroup_topGroups db a (hmem a ha)).1, (scanGroup_topGroups db b (hmem b hb)).1]
    exact hab
  · intro e he
    rw [hlist] at he
    obtain ⟨g, hg, rfl⟩ := List.mem_map.mp he
    obtain ⟨h1, h2, h3, h4⟩ := scanGroup_topGroups db g (hmem g hg)
    refine ⟨h2, ?_, by show (scanGroup g).2 = _; rw [h1, h3]⟩
    have hpos : 0 < ((db.logs.map Row.source_ip).filter
        fun k => decide (k = some (scanGroup g).1)).length := h4
    obtain ⟨k, hk⟩ := List.exists_mem_of_length_pos hpos
    obtain ⟨hk1, hk2⟩ := List.mem_filter.mp hk
    have : k = some (scanGroup g).1 := by simpa using hk2
    rw [← this]
    exact hk1

theorem groupSize_topGroups (db : DB) (ip : String) (hne : ip ≠ "") :
    ((List.filter hasIP (db.logs.map Row.source_ip)).filter
      fun x => decide (x = some ip)).length = db.ipCount ip := by
  unfold DB.ipCount
  rw [List.filter_filter]
  congr 1
  refine List.filter_congr fun k _ => ?_
  by_cases hke : k = some ip
  · subst hke; simp [hasIP, hne]
  · simp [hke]

theorem exampleCounts_pos (ip : String) (h : 0 < exampleCounts ip) :
    (some ip, (exampleCounts ip : Int)) ∈ exampleGroups := by
  unfold exampleCounts at h ⊢
  split_ifs at h ⊢ with h1 h2 h3 h4 h5 h6
  · subst h1; decide
  · subst h2; decide
  · subst h3; decide
  · subst h4; decide
  · subst h5; decide
  · subst h6; decide
  · exact absurd h (lt_irrefl 0)

theorem exampleGroups_counts :
    ∀ g ∈ exampleGroups, ∃ ip, g = (some ip, (exampleCounts ip : Int)) ∧ ip ≠ "" ∧
      0 < exampleCounts ip := by
  intro g hg
  simp only [exampleGroups, List.mem_cons, List.mem_singleton, List.not_mem_nil, or_false] at hg
  rcases hg with rfl | rfl | rfl | rfl | rfl | rfl
  · exact ⟨"A", by decide, by decide, by decide⟩
  · exact ⟨"B", by decide, by decide, by decide⟩
  · exact ⟨"C", by decide, by decide, by decide⟩
  · exact ⟨"D", by decide, by decide, by decide⟩
  · exact ⟨"E", by decide, by decide, by decide⟩
  · exact ⟨"F", by decide, by decide, by decide⟩

theorem groups_perm_example (db : DB) (hc : ∀ ip, db.ipCount ip = exampleCounts ip) :
    (groupCount ((db.logs.map Row.source_ip).filter hasIP)).Perm exampleGroups := by
  have hnd : (groupCount ((db.logs.map Row.source_ip).filter hasIP)).Nodup := by
    unfold groupCount
    refine (List.nodup_dedup _).map ?_
    intro a b hab
    exact (Prod.mk.inj hab).1
  refine (List.perm_ext_iff_of_nodup hnd (by decide)).mpr fun g => ⟨fun hg => ?_, fun hg => ?_⟩
  · obtain ⟨ip, hip, _, hcnt, hpos⟩ := mem_topGroups db g hg
    rw [hc ip] at hcnt hpos
    obtain ⟨k, c⟩ := g
    simp only at hip hcnt
    subst hip hcnt
    exact exampleCounts_pos ip hpos
  · obtain ⟨ip, rfl, hne, hpos⟩ := exampleGroups_counts g hg
    rw [← hc ip] at hpos ⊢
    obtain ⟨k, hk⟩ := List.exists_mem_of_length_pos hpos
    obtain ⟨hk1, hk2⟩ := List.mem_filter.mp hk
    have hk3 : k = some ip := by simpa using hk2
    subst hk3
    unfold groupCount
    refine List.mem_map.mpr ⟨some ip, List.mem_dedup.mpr
      (List.mem_filter.mpr ⟨hk1, by simp [hasIP, hne]⟩), ?_⟩
    rw [groupSize_topGroups db ip hne]

theorem exampleGroups_by_count :
    ∀ g ∈ exampleGroups,
      (g.2 = 10 → g = (some "A", 10) ∨ g = (some "B", 10)) ∧ (g.2 = 9 → g = (some "C", 9)) ∧
      (g.2 = 8 → g = (some "D", 8)) ∧ (g.2 = 7 → g = (some "E", 7)) := by
  decide

theorem sorted_example (l : List GroupRow) (hp : l.Perm exampleGroups)
    (hs : l.Sorted countDesc) :
    l.take 5 = [(some "A", 10), (some "B", 10), (some "C", 9), (some "D", 8), (some "E", 7)] ∨
    l.take 5 = [(some "B", 10), (some "A", 10), (some "C", 9), (some "D", 8), (some "E", 7)] := by
  have hcounts : l.map Prod.snd = [10, 10, 9, 8, 7, 6] := by
    refine List.eq_of_perm_of_sorted (r := (· ≥ ·)) ?_ (List.pairwise_map.mpr hs) (by decide)
    exact (hp.map Prod.snd).trans (by decide)
  have hnd : l.Nodup := hp.nodup_iff.mpr (by decide)
  have hmem : ∀ g ∈ l, g ∈ exampleGroups := fun g hg => hp.subset hg
  rcases l with _ | ⟨l0, _ | ⟨l1, _ | ⟨l2, _ | ⟨l3, _ | ⟨l4, _ | ⟨l5, _ | ⟨l6, t⟩⟩⟩⟩⟩⟩⟩ <;>
    simp only [List.map_cons, List.map_nil, List.cons.injEq, reduceCtorEq, and_false,
      false_and, and_true] at hcounts
  obtain ⟨h0, h1, h2, h3, h4, _⟩ := hcounts
  have e0 := (exampleGroups_by_count l0 (hmem l0 (by simp))).1 h0
  have e1 := (exampleGroups_by_count l1 (hmem l1 (by simp))).1 h1
  have e2 := (exampleGroups_by_count l2 (hmem l2 (by simp))).2.1 h2
  have e3 := (exampleGroups_by_count l3 (hmem l3 (by simp))).2.2.1 h3
  have e4 := (exampleGroups_by_count l4 (hmem l4 (by simp))).2.2.2 h4
  have hne : l0 ≠ l1 := by
    intro h
    rw [h] at hnd
    exact (List.nodup_cons.mp hnd).1 (List.mem_cons_self _ _)
  subst e2 e3 e4
  rcases e0 with rfl | rfl <;> rcases e1 with rfl | rfl
  · exact absurd rfl hne
  · left; rfl
  · right; rfl
  · exact absurd rfl hne

theorem storeIPs_counts (ip : String) : storeIPs.ipCount ip = exampleCounts ip := by
  have hkeys : storeIPs.logs.map Row.source_ip
      = List.replicate 10 (some "A") ++ List.replicate 10 (some "B") ++
        List.replicate 9 (some "C") ++ List.replicate 8 (some "D") ++
        List.replicate 7 (some "E") ++ List.replicate 6 (some "F") := by
    decide
  unfold DB.ipCount exampleCounts
  rw [hkeys]
  split_ifs with h1 h2 h3 h4 h5 h6
  · subst h1; decide
  · subst h2; decide
  · subst h3; decide
  · subst h4; decide
  · subst h5; decide
  · subst h6; decide
  · have n1 : ¬ "A" = ip := fun h => h1 h.symm
    have n2 : ¬ "B" = ip := fun h => h2 h.symm
    have n3 : ¬ "C" = ip := fun h => h3 h.symm
    have n4 : ¬ "D" = ip := fun h => h4 h.symm
    have n5 : ¬ "E" = ip := fun h => h5 h.symm
    have n6 : ¬ "F" = ip := fun h => h6 h.symm
    simp [List.filter_append, List.filter_replicate, n1, n2, n3, n4, n5, n6]

/-- C3: in every snapshot written by `getStats`, `top_ips` has at most 5 entries, its
counts descend, and every entry names a non-empty address that occurs in the store,
with the number of events from it.  For a store whose reads succeed and whose
addresses count A: 10, B: 10, C: 9, D: 8, E: 7, F: 6, the list is A and B in either
order, then C, D, E; F is cut off. -/
theorem getStats_top_ips (db : DB) :
    (∀ s, (getStats db).snapshot = some s →
      s.TopIPs.toList.length ≤ 5 ∧
      (s.TopIPs.toList.map IPCount.count).Sorted (· ≥ ·) ∧
      ∀ e ∈ s.TopIPs.toList, e.source_ip ≠ "" ∧
        some e.source_ip ∈ db.logs.map Row.source_ip ∧
        e.count = (db.ipCount e.source_ip : Int)) ∧
    ((∀ q, db.fault q = none) → (∀ ip, db.ipCount ip = exampleCounts ip) →
      ∃ s, (getStats db).snapshot = some s ∧
        (s.TopIPs.toList = [⟨"A", 10⟩, ⟨"B", 10⟩, ⟨"C", 9⟩, ⟨"D", 8⟩, ⟨"E", 7⟩] ∨
         s.TopIPs.toList = [⟨"B", 10⟩, ⟨"A", 10⟩, ⟨"C", 9⟩, ⟨"D", 8⟩, ⟨"E", 7⟩])) := by
  refine ⟨fun s hs => top_universal db s hs, fun hf hc => ?_⟩
  have h0 : db.queryCount = Except.ok (db.logs.length : Int) := by
    simp [DB.queryCount, hf]
  have h1 : db.queryByService = Except.ok (groupCount (db.logs.map Row.service)) := by
    simp [DB.queryByService, DB.run, hf]
  have h2 : db.queryTopIPs = Except.ok (((groupCount ((db.logs.map Row.source_ip).filter
      hasIP)).insertionSort countDesc).take 5) := by
    simp [DB.queryTopIPs, DB.run, hf]
  refine ⟨⟨(db.logs.length : Int), byServiceLoop (groupCount (db.logs.map Row.service)) none,
    topIPsLoop (((groupCount ((db.logs.map Row.source_ip).filter hasIP)).insertionSort
      countDesc).take 5) none⟩, ?_, ?_⟩
  · rw [getStats_ok db _ _ _ h0 h1 h2]
    simp [ResponseWriter.write, ResponseWriter.snapshot, ResponseWriter.setHeader,
      ResponseWriter.new]
  · have hz : GoSlice.toList (none : GoSlice IPCount) = [] := rfl
    simp only [topIPsLoop_toList, hz, List.nil_append]
    rcases sorted_example _
      ((List.perm_insertionSort countDesc _).trans (groups_perm_example db hc))
      (List.sorted_insertionSort countDesc _) with h | h
    · left; rw [h]; rfl
    · right; rw [h]; rfl

/-- Instance of C3 on the store of fifty events from six addresses. -/
theorem getStats_top_ips_witness :
    ∃ s, (getStats storeIPs).snapshot = some s ∧
      (s.TopIPs.toList = [⟨"A", 10⟩, ⟨"B", 10⟩, ⟨"C", 9⟩, ⟨"D", 8⟩, ⟨"E", 7⟩] ∨
       s.TopIPs.toList = [⟨"B", 10⟩, ⟨"A", 10⟩, ⟨"C", 9⟩, ⟨"D", 8⟩, ⟨"E", 7⟩]) :=
  (getStats_top_ips storeIPs).2 (fun _ => rfl) storeIPs_counts

/-! ## The topology stream -/

theorem run_streaming (t : Transport) (n : Nat) (s : Session) (hs : s.phase = Phase.Streaming) :
    run t n s = ⟨Phase.Streaming, s.writes + n, s.trace ++ loopTrace t s.writes n⟩ := by
  induction n generalizing s with
  | zero =>
    obtain ⟨p, w, tr⟩ := s
    simp only at hs
    subst hs
    simp [run, loopTrace]
  | succ n ih =>
    obtain ⟨p, w, tr⟩ := s
    simp only at hs
    subst hs
    rw [run, ih _ (by simp [step])]
    simp [step, loopTrace, Nat.add_assoc, Nat.add_comm 1 n]

theorem run_init (t : Transport) (h : t.upgradeOk = true) (n : Nat) :
    run t (n + 1) Session.init = ⟨Phase.Streaming, n, loopTrace t 0 n⟩ := by
  rw [run]
  have hstep : step t Session.init = ⟨Phase.Streaming, 0, []⟩ := by
    simp [step, Session.init, h]
  rw [hstep, run_streaming t n _ rfl]
  simp

theorem pushes_loopTrace (t : Transport) (k n : Nat) :
    pushes (loopTrace t k n) = (List.range n).map fun i => (topology, t.writeOk (k + i)) := by
  induction n generalizing k with
  | zero => rfl
  | succ n ih =>
    rw [loopTrace, List.range_succ_eq_map, List.map_cons, List.map_map]
    simp only [pushes, List.filterMap_cons] at ih ⊢
    rw [ih (k + 1)]
    simp [Function.comp_def, Nat.add_assoc, Nat.add_comm 1]

theorem slept_loopTrace (t : Transport) (k n : Nat) : slept (loopTrace t k n) = 5 * n := by
  induction n generalizing k with
  | zero => rfl
  | succ n ih =>
    have := ih (k + 1)
    simp only [slept, loopTrace, List.map_cons, List.sum_cons] at this ⊢
    omega

theorem topology_wellFormed : topology.wellFormed := by
  refine ⟨by decide, ?_⟩
  intro e he
  simp only [topology, List.mem_singleton] at he
  subst he
  decide

/-- C10: while a session is `Streaming`, an iteration of the loop is one push of the
frame followed by one sleep of 5 seconds and leaves the session `Streaming`; after `n`
iterations exactly `n` frames were pushed and 5 * n seconds slept; every frame pushed
is the same well-formed frame: its node ids are distinct and its edges join its nodes. -/
theorem handleTopologyWS_one_frame_per_tick (t : Transport) (s : Session) (n : Nat)
    (hs : s.phase = Phase.Streaming) :
    (step t s).trace
      = s.trace ++ [Action.push topology (t.writeOk s.writes), Action.sleep 5] ∧
    (run t n s).phase = Phase.Streaming ∧
    (run t n s).trace = s.trace ++ loopTrace t s.writes n ∧
    (pushes (loopTrace t s.writes n)).length = n ∧
    slept (loopTrace t s.writes n) = 5 * n ∧
    (∀ p ∈ pushes (loopTrace t s.writes n), p.1 = topology) ∧
    topology.wellFormed := by
  refine ⟨?_, ?_, ?_, ?_, slept_loopTrace t s.writes n, ?_, topology_wellFormed⟩
  · simp [step, hs]
  · rw [run_streaming t n s hs]
  · rw [run_streaming t n s hs]
  · rw [pushes_loopTrace]; simp
  · intro p hp
    rw [pushes_loopTrace] at hp
    obtain ⟨i, _, rfl⟩ := List.mem_map.mp hp
    rfl

/-- Instance of C10: three iterations with a peer that stays. -/
theorem handleTopologyWS_one_frame_per_tick_witness :
    (run livePeer 3 (step livePeer Session.init)).trace
      = [Action.push topology true, Action.sleep 5, Action.push topology true, Action.sleep 5,
          Action.push topology true, Action.sleep 5] :=
  (handleTopologyWS_one_frame_per_tick livePeer (step livePeer Session.init) 3 rfl).2.2.1

/-- C6, on the code: with a peer for which every push fails, the session is still
`Streaming` after any number of iterations, and each iteration made one more push. -/
theorem handleTopologyWS_keeps_pushing (n : Nat) :
    (run deadPeer (n + 1) Session.init).phase = Phase.Streaming ∧
    pushes (run deadPeer (n + 1) Session.init).trace = List.replicate n (topology, false) := by
  rw [run_init deadPeer rfl n]
  refine ⟨rfl, ?_⟩
  show pushes (loopTrace deadPeer 0 n) = _
  rw [pushes_loopTrace]
  simp [deadPeer]

end Honeypot
